import Mathlib

/-!
Verification of the request-governance middleware of the mcp-redmine server
(rate limiting, input validation, error-message sanitization, configuration
validation, health aggregation) against its natural-language specification.

The TypeScript sources are shallowly embedded:
* strings are `String` / `List Char` (ASCII-faithful; the JavaScript regex
  classes `\w`, `\s`, `[a-f0-9]` are modelled on code points),
* JavaScript numbers that only ever hold integers are `Int` / `Nat`,
* the mutable `RateLimiter` / `MetricsCollector` state is explicit state
  passing, `Date.now()` is an explicit `now : Int` argument,
* fallible code returns `Except`,
* regex `String.replace` calls are embedded as single-pass scanners whose
  match condition is spelled out from the regex (see the doc comment of each
  scanner).
-/

/-- Character list of a string literal (shorthand used throughout). -/
def cl (s : String) : List Char := s.data

/-- Substring test: does `pat` occur contiguously inside `l`?
Mirrors JavaScript `String.prototype.includes` and regex-literal search. -/
def occurs (pat : List Char) : List Char → Bool
  | [] => pat.isEmpty
  | c :: t => pat.isPrefixOf (c :: t) || occurs pat t

/-- Is the result of an `Except` computation a success?  (JS: "did not throw".) -/
def exceptOk {ε α : Type} : Except ε α → Bool
  | .ok _ => true
  | .error _ => false

/-- JavaScript regex `\w` (word character): `[A-Za-z0-9_]`, on code points. -/
def isWordChar (c : Char) : Bool :=
  (97 ≤ c.toNat && c.toNat ≤ 122) || (65 ≤ c.toNat && c.toNat ≤ 90) ||
  (48 ≤ c.toNat && c.toNat ≤ 57) || c.toNat == 95

/-- JavaScript regex `[a-f0-9]` under the `i` flag: a hexadecimal digit,
on code points. -/
def isHexChar (c : Char) : Bool :=
  (48 ≤ c.toNat && c.toNat ≤ 57) || (97 ≤ c.toNat && c.toNat ≤ 102) ||
  (65 ≤ c.toNat && c.toNat ≤ 70)

/-- JavaScript regex `\s`, restricted to its ASCII members
(space, tab, line feed, vertical tab, form feed, carriage return). -/
def isSpaceChar (c : Char) : Bool :=
  c == ' ' || c == Char.ofNat 9 || c == Char.ofNat 10 || c == Char.ofNat 11 ||
  c == Char.ofNat 12 || c == Char.ofNat 13

/-- Characters excluded by the path-redaction classes `[^\s'",]` in
`sanitizeErrorMessage` (redmine-client.ts security part, lines 344-345). -/
def stopChar (c : Char) : Bool :=
  isSpaceChar c || c == Char.ofNat 39 || c == Char.ofNat 34 || c == ','

/-- ASCII lower-casing, as performed implicitly by the `i` regex flag. -/
def lowerChar (c : Char) : Char :=
  if 'A' ≤ c && c ≤ 'Z' then Char.ofNat (c.toNat + 32) else c

/-- Lower-case a whole character list (for case-insensitive matching). -/
def lowerL (l : List Char) : List Char := l.map lowerChar

namespace RateLimiter

/-- `RateLimitConfig` (security.ts).  `toolLimits : Record<string, number>` is
an association list; the numeric limits in every configuration in the
repository are non-negative integers, so they are embedded as `Nat`. -/
structure Config where
  windowMs : Int
  maxRequests : Nat
  globalMaxRequests : Nat
  toolLimits : List (String × Nat)

/-- The mutable fields of class `RateLimiter`: `requestCounts` (a map from
tool name to count, absent keys read as 0, embedded as a total function),
`globalRequestCount`, and `windowStart` (a millisecond timestamp). -/
structure State where
  requestCounts : String → Nat
  globalRequestCount : Nat
  windowStart : Int

/-- `RateLimiter.getLimit`: `this.config.toolLimits[tool] || 60`.
JavaScript `||` falls through on the falsy number 0, so a configured limit
of 0 yields 60, exactly like an absent key. -/
def getLimit (cfg : Config) (tool : String) : Nat :=
  match cfg.toolLimits.lookup tool with
  | some l => if l = 0 then 60 else l
  | none => 60

/-- `RateLimiter.resetTimeWindow`: clear all per-tool counts, zero the global
count, restart the window at the current time. -/
def resetTimeWindow (now : Int) (_s : State) : State :=
  { requestCounts := fun _ => 0, globalRequestCount := 0, windowStart := now }

/-- `RateLimiter.checkWindowReset`: lazily reset when the window elapsed. -/
def checkWindowReset (cfg : Config) (now : Int) (s : State) : State :=
  if now - s.windowStart ≥ cfg.windowMs then resetTimeWindow now s else s

/-- `RateLimiter.checkRateLimit(tool)`.  Returns the thrown error (if any)
together with the state after the call.  The inner `checkWindowReset` comes
from the `getRequestCount` call on line 265 of the source. -/
def checkRateLimit (cfg : Config) (now : Int) (tool : String) (s : State) :
    Except String Unit × State :=
  let s1 := checkWindowReset cfg now s
  if s1.globalRequestCount ≥ cfg.globalMaxRequests then
    (Except.error "Global rate limit exceeded", s1)
  else
    let s2 := checkWindowReset cfg now s1
    let currentCount := s2.requestCounts tool
    let limit := getLimit cfg tool
    if currentCount ≥ limit then
      (Except.error ("Rate limit exceeded for tool " ++ tool), s2)
    else
      (Except.ok (),
       { requestCounts := fun t => if t = tool then currentCount + 1 else s2.requestCounts t,
         globalRequestCount := s2.globalRequestCount + 1,
         windowStart := s2.windowStart })

end RateLimiter

namespace MetricsCollector

/-- `RequestMetrics` (metrics.ts). -/
structure RequestMetrics where
  total : Nat
  success : Nat
  errors : Nat
  rate_limited : Nat
deriving DecidableEq

/-- The `requestStats` value installed by the `MetricsCollector` constructor. -/
def initialRequestStats : RequestMetrics :=
  { total := 0, success := 0, errors := 0, rate_limited := 0 }

/-- `MetricsCollector.recordRequest(success, rateLimited)`. -/
def recordRequest (success rateLimited : Bool) (m : RequestMetrics) : RequestMetrics :=
  { total := m.total + 1,
    success := if success then m.success + 1 else m.success,
    errors := if success then m.errors else m.errors + 1,
    rate_limited := if rateLimited then m.rate_limited + 1 else m.rate_limited }

/-- Run a sequence of `recordRequest` calls from a fresh collector. -/
def runRequests (ops : List (Bool × Bool)) : RequestMetrics :=
  ops.foldl (fun m p => recordRequest p.1 p.2 m) initialRequestStats

/-- `HealthStatus.status` values. -/
inductive HealthState where
  | healthy
  | degraded
  | unhealthy
deriving DecidableEq

/-- `RedmineHealthCheck.status` values. -/
inductive RemoteState where
  | connected
  | error
  | unknown
deriving DecidableEq

/-- `MemoryMetrics` (metrics.ts).  `percentage` is a JavaScript number
compared only against the literal 90; it is embedded as `Int`. -/
structure MemoryMetrics where
  used : Nat
  total : Nat
  free : Nat
  percentage : Int
deriving DecidableEq

/-- `RedmineHealthCheck` (metrics.ts). -/
structure RedmineHealthCheck where
  status : RemoteState
  response_time : Option Nat
  error : Option String
deriving DecidableEq

/-- `ToolsMetrics` (metrics.ts). -/
structure ToolsMetrics where
  registered : Nat
  available : List String
deriving DecidableEq

/-- `HealthStatus` (metrics.ts).  The `timestamp` string (wall-clock) is
omitted; `uptime` is passed in as a value. -/
structure HealthStatus where
  status : HealthState
  uptime : Nat
  version : String
  memory : MemoryMetrics
  redmine : RedmineHealthCheck
  tools : ToolsMetrics
  errors : Option (List String)
deriving DecidableEq

/-- `MetricsCollector.getHealthStatus`.  Its two effectful inputs are passed
as values: `memResult` is the outcome of `this.getMemoryMetrics()` (the only
statement of the `try` block that can throw) and `probe` is the result of
`await this.checkRedmineHealth(redmineClient)` (which never throws: it
returns `status: error` on failure). -/
def getHealthStatus (memResult : Except String MemoryMetrics)
    (probe : RedmineHealthCheck) (toolsCount : Nat) (uptime : Nat) : HealthStatus :=
  match memResult with
  | .error e =>
    { status := .degraded, uptime := uptime, version := "1.0.0",
      memory := { used := 0, total := 0, free := 0, percentage := 0 },
      redmine := { status := .unknown, response_time := none, error := none },
      tools := { registered := toolsCount, available := [] },
      errors := some [e] }
  | .ok memory =>
    let errs : List String :=
      if memory.percentage > 90 then ["High memory usage detected"] else []
    let st : HealthState :=
      if probe.status = .error ∨ memory.percentage > 90 then .degraded else .healthy
    { status := st, uptime := uptime, version := "1.0.0",
      memory := memory, redmine := probe,
      tools := { registered := toolsCount, available := [] },
      errors := if errs.isEmpty then none else some errs }

end MetricsCollector

/-! ### JSON values

Structured tool parameters are JSON-like JavaScript values.  Arrays and
objects are mutually inductive cons-lists so that all recursions below are
structural (and hence kernel-computable). -/

mutual
inductive JVal where
  | null : JVal
  | bool (b : Bool) : JVal
  | num (n : Int) : JVal
  | str (s : String) : JVal
  | arr (xs : JArr) : JVal
  | obj (fs : JObj) : JVal
inductive JArr where
  | nil : JArr
  | cons (hd : JVal) (tl : JArr) : JArr
inductive JObj where
  | nil : JObj
  | cons (k : String) (v : JVal) (tl : JObj) : JObj
end

/-- Number of elements of an embedded JSON array. -/
def JArr.length : JArr → Nat
  | .nil => 0
  | .cons _ tl => 1 + tl.length

/-- Number of keys of an embedded JSON object. -/
def JObj.length : JObj → Nat
  | .nil => 0
  | .cons _ _ tl => 1 + tl.length

/-- JSON string escaping of one character, as in `JSON.stringify`. -/
def jsonEscapeChar (c : Char) : List Char :=
  if c = Char.ofNat 34 then [Char.ofNat 92, Char.ofNat 34]
  else if c = Char.ofNat 92 then [Char.ofNat 92, Char.ofNat 92]
  else if c = Char.ofNat 8 then [Char.ofNat 92, 'b']
  else if c = Char.ofNat 9 then [Char.ofNat 92, 't']
  else if c = Char.ofNat 10 then [Char.ofNat 92, 'n']
  else if c = Char.ofNat 12 then [Char.ofNat 92, 'f']
  else if c = Char.ofNat 13 then [Char.ofNat 92, 'r']
  else if c.toNat < 32 then
    [Char.ofNat 92, 'u', '0', '0',
     Char.ofNat (if c.toNat / 16 < 10 then 48 + c.toNat / 16 else 87 + c.toNat / 16),
     Char.ofNat (if c.toNat % 16 < 10 then 48 + c.toNat % 16 else 87 + c.toNat % 16)]
  else [c]

/-- `JSON.stringify` of a string (quotes plus escaping). -/
def stringifyStr (s : String) : List Char :=
  Char.ofNat 34 :: (s.data.flatMap jsonEscapeChar) ++ [Char.ofNat 34]

mutual
/-- `JSON.stringify(v)` (no indentation), producing the serialized text.
Numbers are embedded integers, printed in decimal. -/
def stringify : JVal → List Char
  | .null => cl "null"
  | .bool true => cl "true"
  | .bool false => cl "false"
  | .num n => (toString n).data
  | .str s => stringifyStr s
  | .arr xs => '[' :: stringifyArr xs ++ [']']
  | .obj fs => Char.ofNat 123 :: stringifyObj fs ++ [Char.ofNat 125]
def stringifyArr : JArr → List Char
  | .nil => []
  | .cons hd .nil => stringify hd
  | .cons hd (.cons h2 tl) => stringify hd ++ ',' :: stringifyArr (.cons h2 tl)
def stringifyObj : JObj → List Char
  | .nil => []
  | .cons k v .nil => stringifyStr k ++ ':' :: stringify v
  | .cons k v (.cons k2 v2 tl) =>
      stringifyStr k ++ ':' :: stringify v ++ ',' :: stringifyObj (.cons k2 v2 tl)
end

/-- `Object.keys(input).length` for a top-level structured value: number of
own keys of an object, number of indices of an array, 0 otherwise
(`typeof input === 'object'` is false for primitives). -/
def topLevelKeys : JVal → Nat
  | .obj fs => fs.length
  | .arr xs => xs.length
  | _ => 0

mutual
/-- All strings contained in a value: every object key plus every string
element or field value, at any nesting depth (the order the recursive
validator visits them). -/
def stringsOf : JVal → List String
  | .str s => [s]
  | .arr xs => stringsOfArr xs
  | .obj fs => stringsOfObj fs
  | _ => []
def stringsOfArr : JArr → List String
  | .nil => []
  | .cons hd tl => stringsOf hd ++ stringsOfArr tl
def stringsOfObj : JObj → List String
  | .nil => []
  | .cons k v tl => k :: (stringsOf v ++ stringsOfObj tl)
end

namespace SecurityValidator

/-! ### The eleven `DANGEROUS_PATTERNS` regexes (security.ts lines 286-304)

Each regex is embedded as an executable matcher over the lower-cased
character list (the `i` flag; the case-sensitive patterns contain only
symbols, which lower-casing leaves unchanged).  The statefulness of the two
`g`-flagged patterns (`lastIndex`) is not modelled: a single `test` call on a
fresh position history behaves as the stateless match embedded here. -/

/-- Pattern 1, `/('|\\|"|\[|\]|%|--|#|\/\*|\*\/)/i`: one of the SQL-ish
punctuation tokens occurs. -/
def sqlPunct (l : List Char) : Bool :=
  occurs [Char.ofNat 39] l || occurs [Char.ofNat 92] l || occurs [Char.ofNat 34] l ||
  occurs (cl "[") l || occurs (cl "]") l || occurs (cl "%") l ||
  occurs (cl "--") l || occurs (cl "#") l || occurs (cl "/*") l || occurs (cl "*/") l

/-- Word-boundary keyword search: an occurrence of `kw` whose neighbours (if
any) are non-word characters — the meaning of `/\b kw \b/` for a keyword made
of word characters.  `prev` is the character before the current position. -/
def boundedAt (kw : List Char) (prev : Option Char) : List Char → Bool
  | [] => false
  | c :: t =>
      (kw.isPrefixOf (c :: t) &&
        (match prev with | none => true | some p => !isWordChar p) &&
        (match (c :: t).drop kw.length with | [] => true | d :: _ => !isWordChar d)) ||
      boundedAt kw (some c) t

/-- Keyword occurs with word boundaries on both sides. -/
def boundedKw (kw : List Char) (l : List Char) : Bool := boundedAt kw none l

/-- Pattern 2, `/(\b(SELECT|INSERT|UPDATE|DELETE|DROP|CREATE|ALTER|EXEC|UNION|SCRIPT)\b)/i`. -/
def sqlKeyword (l : List Char) : Bool :=
  [cl "select", cl "insert", cl "update", cl "delete", cl "drop",
   cl "create", cl "alter", cl "exec", cl "union", cl "script"].any
    (fun kw => boundedKw kw l)

/-- Stage 3 of the tag matcher: looking for `close` with no line terminator
before it (regex `.` does not cross line breaks). -/
def tagCloseSearch (close : List Char) : List Char → Bool
  | [] => false
  | c :: t =>
      close.isPrefixOf (c :: t) ||
      (if c = Char.ofNat 10 || c = Char.ofNat 13 then false else tagCloseSearch close t)

/-- Stage 2 of the tag matcher: consume `[^>]*` then `>`, then search for the
closing tag. -/
def tagAfterOpen (close : List Char) : List Char → Bool
  | [] => false
  | c :: t => if c = '>' then tagCloseSearch close t else tagAfterOpen close t

/-- Stage 1 of the tag matcher: try every position for the opening tag.
Embedding of `/<tag[^>]*>.*?<\/tag>/i` (on lower-cased input). -/
def tagScan (opening close : List Char) : List Char → Bool
  | [] => false
  | c :: t =>
      (opening.isPrefixOf (c :: t) && tagAfterOpen close ((c :: t).drop opening.length)) ||
      tagScan opening close t

/-- Pattern 3, `/<script[^>]*>.*?<\/script>/gi`. -/
def scriptTag (l : List Char) : Bool := tagScan (cl "<script") (cl "</script>") l

/-- Pattern 4, `/<iframe[^>]*>.*?<\/iframe>/gi`. -/
def iframeTag (l : List Char) : Bool := tagScan (cl "<iframe") (cl "</iframe>") l

/-- Pattern 5, `/javascript:/i`. -/
def javascriptScheme (l : List Char) : Bool := occurs (cl "javascript:") l

/-- After `on` and one word character: skip the rest of `\w+`, then `\s*`,
then require `=`. -/
def onHandlerSpaces : List Char → Bool
  | [] => false
  | c :: t => if isSpaceChar c then onHandlerSpaces t else c = '='

/-- Skip the remaining word characters of `\w+`, then spaces, then `=`. -/
def onHandlerWords : List Char → Bool
  | [] => false
  | c :: t => if isWordChar c then onHandlerWords t else onHandlerSpaces (c :: t)

/-- Pattern 6, `/on\w+\s*=/i`: scan for `on`, at least one word character,
optional spaces, `=`. -/
def onHandler : List Char → Bool
  | [] => false
  | 'o' :: 'n' :: c :: t => (isWordChar c && onHandlerWords t) || onHandler ('n' :: c :: t)
  | _ :: t => onHandler t

/-- Pattern 7, `/[;&|`$()]/` (case-sensitive shell metacharacters). -/
def shellMeta (l : List Char) : Bool :=
  l.any (fun c => c == ';' || c == '&' || c == '|' || c == Char.ofNat 96 ||
                  c == '$' || c == '(' || c == ')')

/-- Pattern 8, `/\b(rm|del|format|eval|exec|system)\b/i`. -/
def commandKeyword (l : List Char) : Bool :=
  [cl "rm", cl "del", cl "format", cl "eval", cl "exec", cl "system"].any
    (fun kw => boundedKw kw l)

/-- Pattern 9, `/\.\.[\/\\]/` (path traversal). -/
def pathTraversal (l : List Char) : Bool :=
  occurs (cl "../") l || occurs (cl "..\\") l

/-- Pattern 10, `/\/etc\/passwd|\/etc\/shadow|\/proc\/|C:\\Windows/i`. -/
def sensitivePath (l : List Char) : Bool :=
  occurs (cl "/etc/passwd") l || occurs (cl "/etc/shadow") l ||
  occurs (cl "/proc/") l || occurs (cl "c:\\windows") l

/-- Does a string match at least one of the `DANGEROUS_PATTERNS`? -/
def matchesDangerous (s : String) : Bool :=
  let l := lowerL s.data
  sqlPunct l || sqlKeyword l || scriptTag l || iframeTag l || javascriptScheme l ||
  onHandler l || shellMeta l || commandKeyword l || pathTraversal l || sensitivePath l

mutual
/-- `SecurityValidator.validateInputRecursive`: strings are tested against
every dangerous pattern, arrays recurse per element, objects recurse over
keys (which are strings) and values. -/
def validateInputRecursive : JVal → Except String Unit
  | .str s => if matchesDangerous s then Except.error "Invalid input detected" else Except.ok ()
  | .arr xs => validateInputRecursiveArr xs
  | .obj fs => validateInputRecursiveObj fs
  | _ => Except.ok ()
def validateInputRecursiveArr : JArr → Except String Unit
  | .nil => Except.ok ()
  | .cons hd tl =>
      match validateInputRecursive hd with
      | .error e => Except.error e
      | .ok _ => validateInputRecursiveArr tl
def validateInputRecursiveObj : JObj → Except String Unit
  | .nil => Except.ok ()
  | .cons k v tl =>
      if matchesDangerous k then Except.error "Invalid input detected"
      else
        match validateInputRecursive v with
        | .error e => Except.error e
        | .ok _ => validateInputRecursiveObj tl
end

/-- `SecurityValidator.validateInput`: null short-circuits, then the 500000
byte serialized-size check, then the 100-key top-level arity check, then the
recursive pattern scan. -/
def validateInput (v : JVal) : Except String Unit :=
  match v with
  | .null => Except.ok ()
  | _ =>
      if (stringify v).length > 500000 then Except.error "Request payload too large"
      else if topLevelKeys v > 100 then Except.error "Too many parameters"
      else validateInputRecursive v

/-- JavaScript `typeof` of an embedded JSON value (`typeof null` is
`"object"`). -/
def typeOfJVal : JVal → String
  | .num _ => "number"
  | .str _ => "string"
  | .bool _ => "boolean"
  | _ => "object"

/-- Field lookup on an embedded JSON object. -/
def lookupField : JObj → String → Option JVal
  | .nil, _ => none
  | .cons k v tl, key => if k = key then some v else lookupField tl key

/-- `params[key]` for a parameter bag. -/
def getField (v : JVal) (key : String) : Option JVal :=
  match v with
  | .obj fs => lookupField fs key
  | _ => none

/-- `SecurityValidator.validateParameterTypes` for single expected types:
each declared key present in `params` must have the expected runtime type. -/
def validateParameterTypes (params : JVal) : List (String × String) → Except String Unit
  | [] => Except.ok ()
  | (key, expected) :: rest =>
      match getField params key with
      | none => validateParameterTypes params rest
      | some v =>
          if typeOfJVal v = expected then validateParameterTypes params rest
          else Except.error ("Invalid parameter type for " ++ key ++ ": expected " ++
                             expected ++ ", got " ++ typeOfJVal v)

end SecurityValidator

namespace SecurityValidator

/-! ### `sanitizeErrorMessage` (security.ts lines 325-364)

The five `String.replace` calls are embedded as single-pass scanners.  The
redaction token inserted for hex secrets and `test-key`. -/

/-- The `[REDACTED]` replacement text (spelled as an explicit character list
so that appends reduce definitionally). -/
def redactedTok : List Char :=
  ['[', 'R', 'E', 'D', 'A', 'C', 'T', 'E', 'D', ']']

/-- The `[PATH_REDACTED]` replacement text. -/
def pathTok : List Char :=
  ['[', 'P', 'A', 'T', 'H', '_', 'R', 'E', 'D', 'A', 'C', 'T', 'E', 'D', ']']

/-- The `[CONNECTION_REDACTED]` replacement text. -/
def connTok : List Char :=
  ['[', 'C', 'O', 'N', 'N', 'E', 'C', 'T', 'I', 'O', 'N', '_',
   'R', 'E', 'D', 'A', 'C', 'T', 'E', 'D', ']']

/-- Does `/\b[a-f0-9]{32,64}\b/i` match a maximal word run?  Because the run
is delimited by non-word characters (or the ends of the string) and hex
digits are word characters, the regex matches exactly the maximal word runs
that consist only of hex digits and have length between 32 and 64. -/
def hexRedactable (run : List Char) : Bool :=
  run.all isHexChar && decide (32 ≤ run.length) && decide (run.length ≤ 64)

/-- Emit one completed word run of the hex scanner. -/
def flushHex (acc : List Char) : List Char :=
  if hexRedactable acc then redactedTok else acc

/-- Scanner for `message.replace(/\b[a-f0-9]{32,64}\b/gi, '[REDACTED]')`:
accumulate maximal word runs, replacing the redactable ones. -/
def hexGo (acc : List Char) : List Char → List Char
  | [] => flushHex acc
  | c :: rest =>
      if isWordChar c then hexGo (acc ++ [c]) rest
      else flushHex acc ++ c :: hexGo [] rest

/-- The first `replace` of `sanitizeErrorMessage`. -/
def replaceHexTokens (l : List Char) : List Char := hexGo [] l

/-- Emit one completed word run without replacement (used to state which
maximal word runs a message has). -/
def flushRun (acc : List Char) : List (List Char) :=
  if acc.isEmpty then [] else [acc]

/-- Collect the maximal word runs of a character list. -/
def runsGo (acc : List Char) : List Char → List (List Char)
  | [] => flushRun acc
  | c :: rest =>
      if isWordChar c then runsGo (acc ++ [c]) rest
      else flushRun acc ++ runsGo [] rest

/-- The maximal word-character runs of a message. -/
def wordRuns (l : List Char) : List (List Char) := runsGo [] l

/-- `message.replace(/test-key/g, '[REDACTED]')`: literal global replace. -/
def replaceTestKey : List Char → List Char
  | 't' :: 'e' :: 's' :: 't' :: '-' :: 'k' :: 'e' :: 'y' :: rest =>
      redactedTok ++ replaceTestKey rest
  | c :: rest => c :: replaceTestKey rest
  | [] => []

/-- Scanner for `message.replace(/\/[^\s'",]+/g, '[PATH_REDACTED]')`.
Mode `none`: scanning; mode `some got`: a `/` has been consumed and `got`
records whether at least one `[^\s'",]` character followed (the `+`). -/
def posixGo : Option Bool → List Char → List Char
  | none, [] => []
  | none, c :: rest => if c = '/' then posixGo (some false) rest else c :: posixGo none rest
  | some got, [] => if got then pathTok else ['/']
  | some got, c :: rest =>
      if stopChar c then (if got then pathTok else ['/']) ++ c :: posixGo none rest
      else posixGo (some true) rest

/-- The POSIX-path `replace` of `sanitizeErrorMessage`. -/
def replacePosixPaths (l : List Char) : List Char := posixGo none l

/-- Scanner for `message.replace(/C:\\[^\s'",]+/g, '[PATH_REDACTED]')`.
Mode `true` skips the `[^\s'",]+` tail of a match. -/
def winGo : Bool → List Char → List Char
  | false, [] => []
  | false, 'C' :: ':' :: '\\' :: c :: rest =>
      if stopChar c then 'C' :: winGo false (':' :: '\\' :: c :: rest)
      else pathTok ++ winGo true rest
  | false, c :: rest => c :: winGo false rest
  | true, [] => []
  | true, c :: rest => if stopChar c then c :: winGo false rest else winGo true rest

/-- The Windows-path `replace` of `sanitizeErrorMessage`. -/
def replaceWinPaths (l : List Char) : List Char := winGo false l

/-- Modes of the connection-string scanner: scanning (tracking whether the
previous character was a word character, for `\b`), accumulating the `\w+`
scheme candidate, or skipping the `[^\s]+` tail of a match. -/
inductive ConnMode where
  | norm (prevWord : Bool)
  | run (acc : List Char)
  | skip

/-- Scanner for `message.replace(/\b\w+:\/\/[^\s]+/g, '[CONNECTION_REDACTED]')`.
A match is a word run (preceded by a boundary), then `://`, then at least one
non-space character; the replacement consumes through the non-space run. -/
def connGo : ConnMode → List Char → List Char
  | .norm _, [] => []
  | .norm pw, c :: rest =>
      if isWordChar c then
        if pw then c :: connGo (.norm true) rest else connGo (.run [c]) rest
      else c :: connGo (.norm false) rest
  | .run acc, [] => acc
  | .run acc, ':' :: '/' :: '/' :: c :: rest =>
      if isSpaceChar c then acc ++ ':' :: '/' :: '/' :: connGo (.norm false) (c :: rest)
      else connTok ++ connGo .skip rest
  | .run acc, [':', '/', '/'] => acc ++ [':', '/', '/']
  | .run acc, ':' :: '/' :: rest => acc ++ ':' :: '/' :: connGo (.norm false) rest
  | .run acc, ':' :: rest => acc ++ ':' :: connGo (.norm false) rest
  | .run acc, c :: rest =>
      if isWordChar c then connGo (.run (acc ++ [c])) rest
      else acc ++ c :: connGo (.norm false) rest
  | .skip, [] => []
  | .skip, c :: rest => if isSpaceChar c then c :: connGo (.norm false) rest else connGo .skip rest

/-- The connection-string `replace` of `sanitizeErrorMessage`. -/
def replaceConnStrings (l : List Char) : List Char := connGo (.norm false) l

/-- Lines 350-355 of the source: the `NODE_ENV === 'production'` disjunct is
redundant (the inner condition repeats the `includes` tests), so the message
becomes `Internal server error` exactly when it mentions `ENOENT` or
`no such file`, independent of the environment. -/
def enoentOverride (l : List Char) : List Char :=
  if occurs (cl "ENOENT") l || occurs (cl "no such file") l
  then cl "Internal server error" else l

/-- Lines 357-359: database-connection genericization. -/
def dbOverride (l : List Char) : List Char :=
  if occurs (cl "Connection failed") l || occurs (cl "mysql:") l || occurs (cl "postgresql:") l
  then cl "Database connection error" else l

/-- The full message transformation of `sanitizeErrorMessage` applied to a
non-safe message, in source order: hex tokens, `test-key`, POSIX paths,
Windows paths, connection strings, then the two genericizing overrides. -/
def sanitizeMessage (l : List Char) : List Char :=
  dbOverride (enoentOverride (replaceConnStrings (replaceWinPaths (replacePosixPaths
    (replaceTestKey (replaceHexTokens l))))))

/-- An embedded JavaScript `Error`: its `name`, its message (as characters),
and whether it is an `instanceof ValidationError`. -/
structure ErrorObj where
  name : String
  message : List Char
  isValidationError : Bool

/-- The safe-category test of `sanitizeErrorMessage` (lines 329-336):
`ValidationError` instances and the rate-limit / input-guard messages pass
through untouched. -/
def isSafeError (e : ErrorObj) : Bool :=
  e.isValidationError ||
  occurs (cl "Rate limit exceeded") e.message ||
  occurs (cl "Global rate limit exceeded") e.message ||
  occurs (cl "Invalid input detected") e.message ||
  occurs (cl "Request payload too large") e.message ||
  occurs (cl "Too many parameters") e.message ||
  occurs (cl "Invalid parameter type") e.message

/-- `SecurityValidator.sanitizeErrorMessage`: safe categories are returned
unchanged, otherwise a fresh plain `Error` with the transformed message and
the original `name` is produced. -/
def sanitizeErrorMessage (e : ErrorObj) : ErrorObj :=
  if isSafeError e then e
  else { name := e.name, message := sanitizeMessage e.message, isValidationError := false }

end SecurityValidator

namespace Server

/-- The `rateLimitConfig` literal of the `RedmineMcpServer` constructor
(server.ts lines 28-45). -/
def rateLimitConfig : RateLimiter.Config :=
  { windowMs := 60000, maxRequests := 1000, globalMaxRequests := 1000,
    toolLimits :=
      [("list-issues", 60), ("create-issue", 30), ("update-issue", 30),
       ("get-issue", 100), ("list-projects", 60), ("get-project", 100),
       ("list-users", 60), ("get-user", 100), ("health-check", 120),
       ("system-metrics", 60)] }

/-- The catch-block of a tool handler: the error is sanitized; a
`ValidationError` is rewrapped as `Validation error: <message>`. -/
def catchWrap (e : SecurityValidator.ErrorObj) : SecurityValidator.ErrorObj :=
  if e.isValidationError then
    { name := "Error", message := cl "Validation error: " ++ e.message,
      isValidationError := false }
  else SecurityValidator.sanitizeErrorMessage e

/-- The `list-issues` tool handler (server.ts lines 80-101): rate-limit
check, then input validation, then the remote call.  The remote client is an
oracle function; the `Bool` component records whether it was invoked. -/
def runListIssues (s : RateLimiter.State) (now : Int) (params : JVal)
    (remote : JVal → Except SecurityValidator.ErrorObj JVal) :
    Except SecurityValidator.ErrorObj JVal × RateLimiter.State × Bool :=
  match RateLimiter.checkRateLimit rateLimitConfig now "list-issues" s with
  | (.error m, s2) =>
      (.error (catchWrap { name := "Error", message := cl m, isValidationError := false }),
       s2, false)
  | (.ok _, s2) =>
      match SecurityValidator.validateInput params with
      | .error m =>
          (.error (catchWrap { name := "ValidationError", message := cl m,
                               isValidationError := true }), s2, false)
      | .ok _ =>
          match remote params with
          | .error e => (.error (catchWrap e), s2, true)
          | .ok v => (.ok v, s2, true)

/-- The expected parameter types of the `create-issue` handler. -/
def createIssueTypes : List (String × String) := [("project_id", "number"), ("subject", "string")]

/-- The `create-issue` tool handler (server.ts lines 113-138): rate-limit
check, input validation, parameter-type validation, then the remote call. -/
def runCreateIssue (s : RateLimiter.State) (now : Int) (params : JVal)
    (remote : JVal → Except SecurityValidator.ErrorObj JVal) :
    Except SecurityValidator.ErrorObj JVal × RateLimiter.State × Bool :=
  match RateLimiter.checkRateLimit rateLimitConfig now "create-issue" s with
  | (.error m, s2) =>
      (.error (catchWrap { name := "Error", message := cl m, isValidationError := false }),
       s2, false)
  | (.ok _, s2) =>
      match SecurityValidator.validateInput params with
      | .error m =>
          (.error (catchWrap { name := "ValidationError", message := cl m,
                               isValidationError := true }), s2, false)
      | .ok _ =>
          match SecurityValidator.validateParameterTypes params createIssueTypes with
          | .error m =>
              (.error (catchWrap { name := "ValidationError", message := cl m,
                                   isValidationError := true }), s2, false)
          | .ok _ =>
              match remote params with
              | .error e => (.error (catchWrap e), s2, true)
              | .ok v => (.ok v, s2, true)

end Server

namespace ConfigValidator

/-- A candidate `rateLimit` sub-object (typed projection of the input to
`RateLimitConfigSchema`). -/
structure RateLimitInput where
  maxRequests : Option Int
  windowMs : Option Int

/-- A candidate configuration object (typed projection of the `unknown`
input to `ConfigSchema.safeParse`; the claims under verification exercise
only well-typed or absent fields). -/
structure ConfigInput where
  baseUrl : Option String
  apiKey : Option String
  logLevel : Option String
  timeout : Option Int
  rateLimit : Option RateLimitInput

/-- A validated `rateLimit` value with its zod defaults applied. -/
structure RateLimitValidated where
  maxRequests : Int
  windowMs : Int
deriving DecidableEq

/-- `RedmineConfig = z.infer<typeof ConfigSchema>`. -/
structure ValidatedConfig where
  baseUrl : String
  apiKey : String
  logLevel : String
  timeout : Option Int
  rateLimit : Option RateLimitValidated
deriving DecidableEq

/-- One zod issue: a path into the object and a message. -/
structure Issue where
  path : List String
  message : String
deriving DecidableEq

/-- Scheme tail scan: characters of `[A-Za-z0-9+.-]*` followed by `:`. -/
def schemeRest : List Char → Bool
  | [] => false
  | c :: t =>
      if c = ':' then true
      else (('a' ≤ c && c ≤ 'z') || ('A' ≤ c && c ≤ 'Z') || ('0' ≤ c && c ≤ '9') ||
            c == '+' || c == '-' || c == '.') && schemeRest t

/-- Model of `new URL(s)` succeeding (what zod `.url()` checks): the string
starts with an RFC 3986 scheme followed by `:`.  Enough to separate the
valid URLs from the scheme-less strings the claims exercise. -/
def isValidUrl (s : String) : Bool :=
  match s.data with
  | [] => false
  | c :: t => (('a' ≤ c && c ≤ 'z') || ('A' ≤ c && c ≤ 'Z')) && schemeRest t

/-- `ConfigValidator.validate = ConfigSchema.safeParse`: every field is
checked, all issues are collected, and on success the zod defaults
(`logLevel: "info"`, `rateLimit.maxRequests: 1000`, `rateLimit.windowMs:
60000`) are applied. -/
def validate (c : ConfigInput) : Except (List Issue) ValidatedConfig :=
  let urlIssues : List Issue :=
    match c.baseUrl with
    | none => [{ path := ["baseUrl"], message := "Required" }]
    | some u =>
        if !isValidUrl u then [{ path := ["baseUrl"], message := "Base URL must be a valid URL" }]
        else if !((cl "https://").isPrefixOf u.data) then
          [{ path := ["baseUrl"], message := "Base URL must use HTTPS for security" }]
        else []
  let keyIssues : List Issue :=
    match c.apiKey with
    | none => [{ path := ["apiKey"], message := "Required" }]
    | some k =>
        if k.length < 8 then
          [{ path := ["apiKey"], message := "API key must be at least 8 characters long" }]
        else if k.length > 128 then
          [{ path := ["apiKey"], message := "API key must not exceed 128 characters" }]
        else []
  let levelIssues : List Issue :=
    match c.logLevel with
    | none => []
    | some lv =>
        if ["debug", "info", "warn", "error"].contains lv then []
        else [{ path := ["logLevel"], message := "Invalid enum value" }]
  let timeoutIssues : List Issue :=
    match c.timeout with
    | none => []
    | some t =>
        (if t < 1000 then [{ path := ["timeout"], message := "Timeout must be at least 1000ms" }]
         else []) ++
        (if t > 300000 then
          [{ path := ["timeout"], message := "Timeout must not exceed 300000ms (5 minutes)" }]
         else [])
  let rlIssues : List Issue :=
    match c.rateLimit with
    | none => []
    | some rl =>
        (match rl.maxRequests with
         | none => []
         | some m =>
             if m < 1 ∨ m > 10000 then
               [{ path := ["rateLimit", "maxRequests"], message := "Number out of range" }]
             else []) ++
        (match rl.windowMs with
         | none => []
         | some w =>
             if w < 1000 ∨ w > 3600000 then
               [{ path := ["rateLimit", "windowMs"], message := "Number out of range" }]
             else [])
  let issues := urlIssues ++ keyIssues ++ levelIssues ++ timeoutIssues ++ rlIssues
  if issues.isEmpty then
    Except.ok
      { baseUrl := c.baseUrl.getD "", apiKey := c.apiKey.getD "",
        logLevel := c.logLevel.getD "info", timeout := c.timeout,
        rateLimit := c.rateLimit.map (fun rl =>
          { maxRequests := rl.maxRequests.getD 1000, windowMs := rl.windowMs.getD 60000 }) }
  else Except.error issues

/-- All field names mentioned by the issue paths of a validation outcome. -/
def issuePaths : Except (List Issue) ValidatedConfig → List String
  | .error issues => (issues.map Issue.path).flatten
  | .ok _ => []

/-- The `logLevel` of a successful validation outcome. -/
def logLevelOf : Except (List Issue) ValidatedConfig → Option String
  | .ok v => some v.logLevel
  | .error _ => none

/-! ### `getJsonSchema` (config-validator.ts lines 77-126)

The returned JSON-schema document is embedded as an executable acceptance
check, one clause per property of the literal: `baseUrl` (type string,
format uri, pattern `^https://`), `apiKey` (string, minLength 8, maxLength
128), `logLevel` (string enum), `timeout` (number, 1000..300000),
`rateLimit` (object with bounded `maxRequests`/`windowMs`), `required:
[baseUrl, apiKey]`, `additionalProperties: false` (the nested `rateLimit`
schema has no `required` and allows additional properties). -/

/-- Acceptance of one field of the nested `rateLimit` schema. -/
def rlFieldOk (k : String) (v : JVal) : Bool :=
  if k = "maxRequests" then
    match v with
    | .num n => decide (1 ≤ n) && decide (n ≤ 10000)
    | _ => false
  else if k = "windowMs" then
    match v with
    | .num n => decide (1000 ≤ n) && decide (n ≤ 3600000)
    | _ => false
  else true

/-- Check every field of an embedded JSON object with `p`. -/
def allFieldsOk (p : String → JVal → Bool) : JObj → Bool
  | .nil => true
  | .cons k v tl => p k v && allFieldsOk p tl

/-- Does the object have a field named `key`? -/
def hasKey : JObj → String → Bool
  | .nil, _ => false
  | .cons k _ tl, key => k == key || hasKey tl key

/-- Acceptance by the nested `rateLimit` schema. -/
def rateLimitSchemaAccepts : JVal → Bool
  | .obj fs => allFieldsOk rlFieldOk fs
  | _ => false

/-- Acceptance of one property of the top-level schema. -/
def configFieldOk (k : String) (v : JVal) : Bool :=
  if k = "baseUrl" then
    match v with
    | .str s => isValidUrl s && (cl "https://").isPrefixOf s.data
    | _ => false
  else if k = "apiKey" then
    match v with
    | .str s => decide (8 ≤ s.length) && decide (s.length ≤ 128)
    | _ => false
  else if k = "logLevel" then
    match v with
    | .str s => ["debug", "info", "warn", "error"].contains s
    | _ => false
  else if k = "timeout" then
    match v with
    | .num n => decide (1000 ≤ n) && decide (n ≤ 300000)
    | _ => false
  else if k = "rateLimit" then rateLimitSchemaAccepts v
  else false

/-- Acceptance by the document returned by `getJsonSchema()`. -/
def schemaAccepts : JVal → Bool
  | .obj fs => hasKey fs "baseUrl" && hasKey fs "apiKey" && allFieldsOk configFieldOk fs
  | _ => false

/-- The parse of the document returned by `generateTemplate()`
(config-validator.ts lines 131-142). -/
def generateTemplateParsed : JVal :=
  .obj (.cons "baseUrl" (.str "https://your-redmine-instance.com")
    (.cons "apiKey" (.str "your-api-key-here")
      (.cons "logLevel" (.str "info")
        (.cons "timeout" (.num 30000)
          (.cons "rateLimit"
            (.obj (.cons "maxRequests" (.num 1000) (.cons "windowMs" (.num 60000) .nil)))
            .nil)))))

/-- The template document read as a `ConfigInput` (same field values), for
checking it against the configuration schema itself. -/
def templateConfigInput : ConfigInput :=
  { baseUrl := some "https://your-redmine-instance.com",
    apiKey := some "your-api-key-here",
    logLevel := some "info",
    timeout := some 30000,
    rateLimit := some { maxRequests := some 1000, windowMs := some 60000 } }

end ConfigValidator

/-! ### Concrete inputs used by counterexamples and witnesses -/

/-- A rate-limit configuration whose `toolLimits` maps `"x"` to 0 (a value
`Record<string, number>` admits). -/
def zeroLimitConfig : RateLimiter.Config :=
  { windowMs := 60000, maxRequests := 1000, globalMaxRequests := 1000,
    toolLimits := [("x", 0)] }

/-- A freshly constructed rate-limiter state (all counts 0, window at 0). -/
def freshState : RateLimiter.State :=
  { requestCounts := fun _ => 0, globalRequestCount := 0, windowStart := 0 }

/-- A small configuration for exercising the window reset. -/
def smallWindowConfig : RateLimiter.Config :=
  { windowMs := 5, maxRequests := 10, globalMaxRequests := 10, toolLimits := [] }

/-- A mid-window state with nonzero counters. -/
def busyState : RateLimiter.State :=
  { requestCounts := fun _ => 7, globalRequestCount := 3, windowStart := 0 }

/-- A non-safe error whose message contains a `scheme://...` connection
string. -/
def connStringError : SecurityValidator.ErrorObj :=
  { name := "Error", message := cl "connect to http://db.example.com failed",
    isValidationError := false }

/-- A non-safe error carrying a word-bounded 40-character hex token after a
`Connection failed` marker. -/
def dbHexError : SecurityValidator.ErrorObj :=
  { name := "Error",
    message := cl "Connection failed: 0123456789abcdef0123456789abcdef01234567",
    isValidationError := false }

/-- A non-safe error carrying a word-bounded 40-character hex token and no
path / override material. -/
def plainHexError : SecurityValidator.ErrorObj :=
  { name := "Error",
    message := cl "bad key 0123456789abcdef0123456789abcdef01234567 rejected",
    isValidationError := false }

/-- The 40-character hex token of `plainHexError` and `dbHexError`. -/
def hexTok40 : List Char := cl "0123456789abcdef0123456789abcdef01234567"

/-- A failing remote probe result (as `checkRedmineHealth` produces on a
thrown listing call). -/
def failingProbe : MetricsCollector.RedmineHealthCheck :=
  { status := .error, response_time := none,
    error := some "Network error: Unable to connect to Redmine server" }

/-- An unremarkable memory sample (percentage well below 90). -/
def calmMemory : MetricsCollector.MemoryMetrics :=
  { used := 1000, total := 10000, free := 9000, percentage := 10 }

/-- A benign structured parameter bag. -/
def benignParams : JVal := JVal.obj (.cons "subject" (.str "hello world") .nil)

/-- Does the list start with the character `y`? -/
def headIs (y : Char) : List Char → Bool
  | [] => false
  | d :: _ => y == d

/-- The needle of the `test-key` replace, as a character list. -/
def testKeyNeedle : List Char := ['t', 'e', 's', 't', '-', 'k', 'e', 'y']

/-- The needle of the Windows-path replace, as a character list. -/
def winNeedle : List Char := ['C', ':', '\\']

/-! ## Theorems -/

/-! ### Substring-search infrastructure -/

theorem isPrefixOf_self (l : List Char) : l.isPrefixOf l = true :=
  List.isPrefixOf_iff_prefix.mpr (List.prefix_refl l)

theorem occurs_self (p : List Char) : occurs p p = true := by
  cases p with
  | nil => rfl
  | cons c t => simp [occurs, isPrefixOf_self]

theorem occurs_nil_pat (l : List Char) : occurs [] l = true := by
  cases l <;> simp [occurs, List.isPrefixOf]

theorem occurs_append_left {p a : List Char} (b : List Char) (h : occurs p a = true) :
    occurs p (a ++ b) = true := by
  induction a with
  | nil =>
      have hp : p = [] := by simpa [occurs, List.isEmpty_iff] using h
      subst hp; exact occurs_nil_pat b
  | cons c t ih =>
      simp only [List.cons_append, occurs, Bool.or_eq_true] at h ⊢
      rcases h with h | h
      · left
        have hp : p <+: c :: t := List.isPrefixOf_iff_prefix.mp h
        have : c :: t <+: c :: (t ++ b) := by
          have := List.prefix_append (c :: t) b
          simp only [List.cons_append] at this
          exact this
        exact List.isPrefixOf_iff_prefix.mpr (hp.trans this)
      · right; exact ih h

theorem occurs_append_right {p b : List Char} (a : List Char) (h : occurs p b = true) :
    occurs p (a ++ b) = true := by
  induction a with
  | nil => simp only [List.nil_append]; exact h
  | cons c t ih => simp only [List.cons_append, occurs, Bool.or_eq_true]; right; exact ih

theorem occurs_length_le {p l : List Char} (h : occurs p l = true) : p.length ≤ l.length := by
  induction l with
  | nil =>
      have hp : p = [] := by simpa [occurs, List.isEmpty_iff] using h
      simp [hp]
  | cons c t ih =>
      simp only [occurs, Bool.or_eq_true] at h
      rcases h with h | h
      · exact (List.isPrefixOf_iff_prefix.mp h).length_le
      · have := ih h; simp only [List.length_cons]; omega

theorem occurs_cons_false {p : List Char} {c : Char} {t : List Char}
    (h : occurs p (c :: t) = false) : occurs p t = false := by
  simp only [occurs, Bool.or_eq_false_iff] at h
  exact h.2

theorem prefixOf_append_stop {P : Char → Bool} {c : Char} (hc : P c = false) :
    ∀ (t A B : List Char), t.all P = true → t.isPrefixOf (A ++ c :: B) = t.isPrefixOf A := by
  intro t
  induction t with
  | nil => intro A B _; cases A <;> simp [List.isPrefixOf]
  | cons x t' ih =>
      intro A B ht
      simp only [List.all_cons, Bool.and_eq_true] at ht
      cases A with
      | nil =>
          have hxc : (x == c) = false := by
            cases hbe : x == c
            · rfl
            · have hx : x = c := eq_of_beq hbe
              rw [hx] at ht; rw [ht.1] at hc; cases hc
          simp [List.isPrefixOf, hxc]
      | cons a A' =>
          simp only [List.cons_append, List.isPrefixOf, List.append_eq]
          rw [ih A' B ht.2]

theorem occurs_split_char {P : Char → Bool} {c : Char} (hc : P c = false)
    (t : List Char) (ht : t.all P = true) (hne : t ≠ []) :
    ∀ (A B : List Char), occurs t (A ++ c :: B) = (occurs t A || occurs t B) := by
  intro A B
  induction A with
  | nil =>
      rcases t with _ | ⟨x, t'⟩
      · cases hne rfl
      · have h0 := prefixOf_append_stop hc (x :: t') [] B ht
        simp only [List.nil_append] at h0 ⊢
        simp only [occurs, h0]
        simp [List.isPrefixOf]
  | cons a A' ih =>
      simp only [List.cons_append, occurs, List.append_eq]
      have hp := prefixOf_append_stop hc t (a :: A') B ht
      simp only [List.cons_append] at hp
      rw [hp, ih, Bool.or_assoc]

/-! ### Rate limiter (claims C1, C2) -/

theorem checkWindowReset_idem (cfg : RateLimiter.Config) (now : Int) (s : RateLimiter.State) :
    RateLimiter.checkWindowReset cfg now (RateLimiter.checkWindowReset cfg now s)
      = RateLimiter.checkWindowReset cfg now s := by
  unfold RateLimiter.checkWindowReset RateLimiter.resetTimeWindow
  by_cases h : now - s.windowStart ≥ cfg.windowMs
  · simp only [ge_iff_le, if_pos h]
    split <;> rfl
  · simp only [ge_iff_le, if_neg h]

theorem checkWindowReset_of_reset (cfg : RateLimiter.Config) (now : Int) :
    RateLimiter.checkWindowReset cfg now
        { requestCounts := fun _ => 0, globalRequestCount := 0, windowStart := now }
      = { requestCounts := fun _ => 0, globalRequestCount := 0, windowStart := now } := by
  unfold RateLimiter.checkWindowReset RateLimiter.resetTimeWindow
  split <;> rfl

/-- C1 (amended): `checkRateLimit` succeeds iff, after any due window reset,
the global count is below the global maximum and the tool count is below the
effective limit `getLimit` — which is the configured limit when it is
nonzero, and 60 when the tool is unlisted or its configured limit is the
falsy 0.  A success increments the global counter and exactly the checked
tool's counter by 1; a failure increments neither; the window start is
unchanged by the check itself. -/
theorem c1_rate_limit_check_amended (cfg : RateLimiter.Config) (now : Int) (tool : String)
    (s : RateLimiter.State) :
    (exceptOk (RateLimiter.checkRateLimit cfg now tool s).1 = true ↔
      ((RateLimiter.checkWindowReset cfg now s).globalRequestCount < cfg.globalMaxRequests ∧
       (RateLimiter.checkWindowReset cfg now s).requestCounts tool
         < RateLimiter.getLimit cfg tool))
    ∧ (RateLimiter.checkRateLimit cfg now tool s).2.globalRequestCount
        = (RateLimiter.checkWindowReset cfg now s).globalRequestCount
          + (if exceptOk (RateLimiter.checkRateLimit cfg now tool s).1 = true then 1 else 0)
    ∧ (∀ t, (RateLimiter.checkRateLimit cfg now tool s).2.requestCounts t
        = (RateLimiter.checkWindowReset cfg now s).requestCounts t
          + (if exceptOk (RateLimiter.checkRateLimit cfg now tool s).1 = true ∧ t = tool
             then 1 else 0))
    ∧ (RateLimiter.checkRateLimit cfg now tool s).2.windowStart
        = (RateLimiter.checkWindowReset cfg now s).windowStart := by
  simp only [RateLimiter.checkRateLimit, checkWindowReset_idem]
  set s1 := RateLimiter.checkWindowReset cfg now s with hs1
  by_cases h1 : s1.globalRequestCount ≥ cfg.globalMaxRequests
  · simp only [if_pos h1]
    refine ⟨?_, ?_, fun t => ?_, trivial⟩
    · constructor
      · intro h; simp [exceptOk] at h
      · intro h; exact absurd h.1 (by omega)
    · simp [exceptOk]
    · simp [exceptOk]
  · simp only [if_neg h1]
    by_cases h2 : s1.requestCounts tool ≥ RateLimiter.getLimit cfg tool
    · simp only [if_pos h2]
      refine ⟨?_, ?_, fun t => ?_, trivial⟩
      · constructor
        · intro h; simp [exceptOk] at h
        · intro h; exact absurd h.2 (by omega)
      · simp [exceptOk]
      · simp [exceptOk]
    · simp only [if_neg h2]
      refine ⟨?_, ?_, fun t => ?_, trivial⟩
      · constructor
        · intro _; exact ⟨by omega, by omega⟩
        · intro _; rfl
      · simp [exceptOk]
      · by_cases ht : t = tool
        · subst ht; simp [exceptOk]
        · simp [exceptOk, ht]

/-- C1 counterexample: with `toolLimits = {x: 0}` and all counters at zero,
the claim's reading (count below the *configured* limit, here 0) predicts a
failure, but `checkRateLimit` succeeds because `toolLimits[tool] || 60`
treats the configured 0 as absent. -/
theorem c1_zero_limit_counterexample :
    exceptOk (RateLimiter.checkRateLimit zeroLimitConfig 0 "x" freshState).1 = true
    ∧ zeroLimitConfig.toolLimits.lookup "x" = some 0
    ∧ ¬ ((RateLimiter.checkWindowReset zeroLimitConfig 0 freshState).requestCounts "x" < 0) := by
  refine ⟨?_, ?_, ?_⟩ <;> decide

/-- C2: when the window has elapsed (`now - windowStart ≥ windowMs`), the
lazy reset zeroes the global counter and every per-tool counter
simultaneously and moves `windowStart` to `now`; `checkRateLimit` behaves
exactly as if run on that freshly reset state (the reset happens before any
counter is read); and an explicit `resetTimeWindow` returns every counter to
0. -/
theorem c2_window_reset_semantics (cfg : RateLimiter.Config) (now : Int) (tool : String)
    (s : RateLimiter.State) (h : now - s.windowStart ≥ cfg.windowMs) :
    RateLimiter.checkWindowReset cfg now s
      = { requestCounts := fun _ => 0, globalRequestCount := 0, windowStart := now }
    ∧ RateLimiter.checkRateLimit cfg now tool s
      = RateLimiter.checkRateLimit cfg now tool
          { requestCounts := fun _ => 0, globalRequestCount := 0, windowStart := now }
    ∧ (∀ (now2 : Int) (s2 : RateLimiter.State) (t : String),
        (RateLimiter.resetTimeWindow now2 s2).requestCounts t = 0
        ∧ (RateLimiter.resetTimeWindow now2 s2).globalRequestCount = 0) := by
  have h1 : RateLimiter.checkWindowReset cfg now s
      = { requestCounts := fun _ => 0, globalRequestCount := 0, windowStart := now } := by
    unfold RateLimiter.checkWindowReset RateLimiter.resetTimeWindow
    rw [if_pos h]
  refine ⟨h1, ?_, fun now2 s2 t => ⟨rfl, rfl⟩⟩
  simp only [RateLimiter.checkRateLimit, h1, checkWindowReset_of_reset]

/-- Witness for C2 at a concrete elapsed window. -/
theorem c2_window_reset_witness :
    RateLimiter.checkWindowReset smallWindowConfig 5 busyState
      = { requestCounts := fun _ => 0, globalRequestCount := 0, windowStart := 5 }
    ∧ RateLimiter.checkRateLimit smallWindowConfig 5 "x" busyState
      = RateLimiter.checkRateLimit smallWindowConfig 5 "x"
          { requestCounts := fun _ => 0, globalRequestCount := 0, windowStart := 5 }
    ∧ (∀ (now2 : Int) (s2 : RateLimiter.State) (t : String),
        (RateLimiter.resetTimeWindow now2 s2).requestCounts t = 0
        ∧ (RateLimiter.resetTimeWindow now2 s2).globalRequestCount = 0) :=
  c2_window_reset_semantics smallWindowConfig 5 "x" busyState (by decide)

/-! ### Metrics collector (claims C10, C8) -/

/-- C10: starting from a fresh `MetricsCollector`, after any sequence of
`recordRequest(success, rateLimited)` calls the counters satisfy
`total = success + errors`, and a single `recordRequest` never decreases any
of the four counters. -/
theorem c10_request_counter_invariants :
    (∀ ops : List (Bool × Bool),
        (MetricsCollector.runRequests ops).total
          = (MetricsCollector.runRequests ops).success
            + (MetricsCollector.runRequests ops).errors)
    ∧ (∀ (sc rl : Bool) (m : MetricsCollector.RequestMetrics),
        m.total ≤ (MetricsCollector.recordRequest sc rl m).total
        ∧ m.success ≤ (MetricsCollector.recordRequest sc rl m).success
        ∧ m.errors ≤ (MetricsCollector.recordRequest sc rl m).errors
        ∧ m.rate_limited ≤ (MetricsCollector.recordRequest sc rl m).rate_limited) := by
  constructor
  · have aux : ∀ (ops : List (Bool × Bool)) (m : MetricsCollector.RequestMetrics),
        m.total = m.success + m.errors →
        (ops.foldl (fun m p => MetricsCollector.recordRequest p.1 p.2 m) m).total
          = (ops.foldl (fun m p => MetricsCollector.recordRequest p.1 p.2 m) m).success
            + (ops.foldl (fun m p => MetricsCollector.recordRequest p.1 p.2 m) m).errors := by
      intro ops
      induction ops with
      | nil => intro m hm; exact hm
      | cons p rest ih =>
          intro m hm
          simp only [List.foldl_cons]
          apply ih
          rcases p with ⟨sc, rl⟩
          cases sc <;> simp [MetricsCollector.recordRequest] <;> omega
    intro ops
    exact aux ops MetricsCollector.initialRequestStats rfl
  · intro sc rl m
    cases sc <;> cases rl <;>
      simp +arith [MetricsCollector.recordRequest]

/-- C8 (amended): with a successful memory sample, the snapshot status is
degraded exactly when the probe failed or the memory percentage exceeds 90
(healthy otherwise); the probe result is carried verbatim in `redmine`; an
`errors` entry is appended only in the high-memory case — a probe failure
alone leaves `errors` absent.  A failing memory sample yields a degraded
snapshot whose `errors` carries the failure message. -/
theorem c8_health_status_amended (mem : MetricsCollector.MemoryMetrics)
    (probe : MetricsCollector.RedmineHealthCheck) (n u : Nat) :
    ((MetricsCollector.getHealthStatus (.ok mem) probe n u).status
        = (if probe.status = .error ∨ mem.percentage > 90
           then MetricsCollector.HealthState.degraded else .healthy))
    ∧ (MetricsCollector.getHealthStatus (.ok mem) probe n u).redmine = probe
    ∧ (MetricsCollector.getHealthStatus (.ok mem) probe n u).errors
        = (if mem.percentage > 90 then some ["High memory usage detected"] else none)
    ∧ (∀ e : String,
        (MetricsCollector.getHealthStatus (.error e) probe n u).status = .degraded
        ∧ (MetricsCollector.getHealthStatus (.error e) probe n u).errors = some [e]) := by
  refine ⟨rfl, rfl, ?_, fun e => ⟨rfl, rfl⟩⟩
  by_cases hm : mem.percentage > 90 <;>
    simp [MetricsCollector.getHealthStatus, hm]

/-- C8 counterexample: a failing remote probe with a calm memory sample
produces `status = degraded` and `redmine.status = error` carrying the
probe's failure text, but appends nothing to `errors` (the field stays
absent), contradicting the claim that a descriptive entry is appended in
each degraded case. -/
theorem c8_probe_failure_counterexample :
    (MetricsCollector.getHealthStatus (.ok calmMemory) failingProbe 8 0).status = .degraded
    ∧ (MetricsCollector.getHealthStatus (.ok calmMemory) failingProbe 8 0).redmine.status
        = .error
    ∧ (MetricsCollector.getHealthStatus (.ok calmMemory) failingProbe 8 0).redmine.error
        = some "Network error: Unable to connect to Redmine server"
    ∧ (MetricsCollector.getHealthStatus (.ok calmMemory) failingProbe 8 0).errors = none := by
  refine ⟨?_, ?_, ?_, ?_⟩ <;> decide

/-! ### Input guard (claim C3) -/

theorem stringsOf_str (s : String) : stringsOf (.str s) = [s] := rfl

theorem stringsOf_arr (xs : JArr) : stringsOf (.arr xs) = stringsOfArr xs := rfl

theorem stringsOf_obj (fs : JObj) : stringsOf (.obj fs) = stringsOfObj fs := rfl

theorem stringsOfArr_cons (hd : JVal) (tl : JArr) :
    stringsOfArr (.cons hd tl) = stringsOf hd ++ stringsOfArr tl := rfl

theorem stringsOfObj_cons (k : String) (v : JVal) (tl : JObj) :
    stringsOfObj (.cons k v tl) = k :: (stringsOf v ++ stringsOfObj tl) := rfl

theorem validateInputRecursive_str (s : String) :
    SecurityValidator.validateInputRecursive (.str s)
      = if SecurityValidator.matchesDangerous s then Except.error "Invalid input detected"
        else Except.ok () := rfl

theorem validateInputRecursive_arr (xs : JArr) :
    SecurityValidator.validateInputRecursive (.arr xs)
      = SecurityValidator.validateInputRecursiveArr xs := rfl

theorem validateInputRecursive_obj (fs : JObj) :
    SecurityValidator.validateInputRecursive (.obj fs)
      = SecurityValidator.validateInputRecursiveObj fs := rfl

theorem validateInputRecursiveArr_cons (hd : JVal) (tl : JArr) :
    SecurityValidator.validateInputRecursiveArr (.cons hd tl)
      = (match SecurityValidator.validateInputRecursive hd with
         | .error e => Except.error e
         | .ok _ => SecurityValidator.validateInputRecursiveArr tl) := rfl

theorem validateInputRecursiveObj_cons (k : String) (v : JVal) (tl : JObj) :
    SecurityValidator.validateInputRecursiveObj (.cons k v tl)
      = (if SecurityValidator.matchesDangerous k then Except.error "Invalid input detected"
         else match SecurityValidator.validateInputRecursive v with
              | .error e => Except.error e
              | .ok _ => SecurityValidator.validateInputRecursiveObj tl) := rfl

theorem validateInput_nonnull : ∀ v : JVal, v ≠ .null →
    SecurityValidator.validateInput v
      = (if (stringify v).length > 500000 then Except.error "Request payload too large"
         else if topLevelKeys v > 100 then Except.error "Too many parameters"
         else SecurityValidator.validateInputRecursive v) := by
  intro v hv
  cases v
  case null => exact absurd rfl hv
  all_goals rfl

theorem validateInputRecursive_ok : ∀ v : JVal,
    (stringsOf v).all (fun s => !SecurityValidator.matchesDangerous s) = true →
    SecurityValidator.validateInputRecursive v = Except.ok () := by
  refine JVal.rec
    (motive_1 := fun v =>
      (stringsOf v).all (fun s => !SecurityValidator.matchesDangerous s) = true →
      SecurityValidator.validateInputRecursive v = Except.ok ())
    (motive_2 := fun xs =>
      (stringsOfArr xs).all (fun s => !SecurityValidator.matchesDangerous s) = true →
      SecurityValidator.validateInputRecursiveArr xs = Except.ok ())
    (motive_3 := fun fs =>
      (stringsOfObj fs).all (fun s => !SecurityValidator.matchesDangerous s) = true →
      SecurityValidator.validateInputRecursiveObj fs = Except.ok ())
    ?_ ?_ ?_ ?_ ?_ ?_ ?_ ?_ ?_ ?_
  · intro _; rfl
  · intro b _; rfl
  · intro n _; rfl
  · intro s h
    rw [stringsOf_str] at h
    have hs : SecurityValidator.matchesDangerous s = false := by
      simp only [List.all_cons, List.all_nil, Bool.and_true, Bool.not_eq_true'] at h
      exact h
    rw [validateInputRecursive_str, hs]
    rfl
  · intro xs ih h
    rw [stringsOf_arr] at h
    rw [validateInputRecursive_arr]
    exact ih h
  · intro fs ih h
    rw [stringsOf_obj] at h
    rw [validateInputRecursive_obj]
    exact ih h
  · intro _; rfl
  · intro hd tl ih1 ih2 hh
    rw [stringsOfArr_cons, List.all_append, Bool.and_eq_true] at hh
    rw [validateInputRecursiveArr_cons, ih1 hh.1]
    exact ih2 hh.2
  · intro _; rfl
  · intro k v tl ih1 ih2 hh
    rw [stringsOfObj_cons, List.all_cons, List.all_append] at hh
    simp only [Bool.and_eq_true, Bool.not_eq_true'] at hh
    rw [validateInputRecursiveObj_cons, hh.1, ih1 hh.2.1]
    exact ih2 hh.2.2

/-- C3: any value whose serialization is under 500000 bytes, whose top-level
key count is at most 100, and none of whose strings (keys, elements or
values, at any depth) matches a dangerous pattern passes `validateInput`;
the XSS and SQL-injection sample strings are rejected with the fixed
`Invalid input detected` message, which does not name the matching pattern. -/
theorem c3_validate_input (v : JVal)
    (hsize : (stringify v).length < 500000)
    (hkeys : topLevelKeys v ≤ 100)
    (hclean : (stringsOf v).all (fun s => !SecurityValidator.matchesDangerous s) = true) :
    SecurityValidator.validateInput v = Except.ok ()
    ∧ SecurityValidator.validateInput (JVal.str "<script>alert(1)</script>")
        = Except.error "Invalid input detected"
    ∧ SecurityValidator.validateInput (JVal.str "1; DROP TABLE issues; --")
        = Except.error "Invalid input detected" := by
  refine ⟨?_, ?_, ?_⟩
  · cases v
    case null => rfl
    all_goals
      rw [validateInput_nonnull _ (by intro hcon; exact JVal.noConfusion hcon)]
      rw [if_neg (by omega), if_neg (by omega)]
      exact validateInputRecursive_ok _ hclean
  · have hm : SecurityValidator.matchesDangerous "<script>alert(1)</script>" = true := by decide
    rw [validateInput_nonnull _ (by intro hcon; exact JVal.noConfusion hcon)]
    rw [if_neg (by decide), if_neg (by decide), validateInputRecursive_str, hm]
    rfl
  · have hm : SecurityValidator.matchesDangerous "1; DROP TABLE issues; --" = true := by decide
    rw [validateInput_nonnull _ (by intro hcon; exact JVal.noConfusion hcon)]
    rw [if_neg (by decide), if_neg (by decide), validateInputRecursive_str, hm]
    rfl

/-- Witness for C3 at a concrete benign parameter bag. -/
theorem c3_validate_input_witness :
    SecurityValidator.validateInput benignParams = Except.ok ()
    ∧ SecurityValidator.validateInput (JVal.str "<script>alert(1)</script>")
        = Except.error "Invalid input detected"
    ∧ SecurityValidator.validateInput (JVal.str "1; DROP TABLE issues; --")
        = Except.error "Invalid input detected" :=
  c3_validate_input benignParams (by decide) (by decide) (by decide)

/-! ### Tool handlers (claim C9) -/

/-- C9: in the `list-issues` and `create-issue` handlers the remote client
is invoked exactly when the admission (rate-limit) check and the input
validations all succeed — so if either the rate limiter or `validateInput`
fails, no remote call is attempted in that invocation. -/
theorem c9_admission_before_remote (s : RateLimiter.State) (now : Int) (params : JVal)
    (remote : JVal → Except SecurityValidator.ErrorObj JVal) :
    (Server.runListIssues s now params remote).2.2
      = (exceptOk (RateLimiter.checkRateLimit Server.rateLimitConfig now "list-issues" s).1
         && exceptOk (SecurityValidator.validateInput params))
    ∧ (Server.runCreateIssue s now params remote).2.2
      = (exceptOk (RateLimiter.checkRateLimit Server.rateLimitConfig now "create-issue" s).1
         && exceptOk (SecurityValidator.validateInput params)
         && exceptOk (SecurityValidator.validateParameterTypes params Server.createIssueTypes)) := by
  constructor
  · rcases hr : RateLimiter.checkRateLimit Server.rateLimitConfig now "list-issues" s
      with ⟨res, s2⟩
    cases res with
    | error m => simp [Server.runListIssues, hr, exceptOk]
    | ok u =>
        cases u
        cases hv : SecurityValidator.validateInput params with
        | error m => simp [Server.runListIssues, hr, hv, exceptOk]
        | ok u2 =>
            cases u2
            cases hrem : remote params <;>
              simp [Server.runListIssues, hr, hv, hrem, exceptOk]
  · rcases hr : RateLimiter.checkRateLimit Server.rateLimitConfig now "create-issue" s
      with ⟨res, s2⟩
    cases res with
    | error m => simp [Server.runCreateIssue, hr, exceptOk]
    | ok u =>
        cases u
        cases hv : SecurityValidator.validateInput params with
        | error m => simp [Server.runCreateIssue, hr, hv, exceptOk]
        | ok u2 =>
            cases u2
            cases ht : SecurityValidator.validateParameterTypes params Server.createIssueTypes with
            | error m => simp [Server.runCreateIssue, hr, hv, ht, exceptOk]
            | ok u3 =>
                cases u3
                cases hrem : remote params <;>
                  simp [Server.runCreateIssue, hr, hv, ht, hrem, exceptOk]

/-! ### Configuration validation (claims C6, C7) -/

/-- C6: the valid configuration succeeds with `logLevel` defaulted to
`info`; the malformed base URL fails with an issue path containing
`baseUrl`; the short credential (the `apiKey` field) fails with an issue
path containing `apiKey`. -/
theorem c6_config_validation :
    ConfigValidator.validate
        { baseUrl := some "https://x.example/", apiKey := some "12345678",
          logLevel := none, timeout := none, rateLimit := none }
      = Except.ok
        { baseUrl := "https://x.example/", apiKey := "12345678", logLevel := "info",
          timeout := none, rateLimit := none }
    ∧ exceptOk (ConfigValidator.validate
        { baseUrl := some "not-a-url", apiKey := some "12345678",
          logLevel := none, timeout := none, rateLimit := none }) = false
    ∧ "baseUrl" ∈ ConfigValidator.issuePaths (ConfigValidator.validate
        { baseUrl := some "not-a-url", apiKey := some "12345678",
          logLevel := none, timeout := none, rateLimit := none })
    ∧ exceptOk (ConfigValidator.validate
        { baseUrl := some "https://x.example/", apiKey := some "short",
          logLevel := none, timeout := none, rateLimit := none }) = false
    ∧ "apiKey" ∈ ConfigValidator.issuePaths (ConfigValidator.validate
        { baseUrl := some "https://x.example/", apiKey := some "short",
          logLevel := none, timeout := none, rateLimit := none }) := by
  refine ⟨rfl, ?_, ?_, ?_, ?_⟩ <;> decide

/-- C7: the parsed output of `generateTemplate()` is accepted by the schema
document returned by `getJsonSchema()`, and also validates against the
configuration schema itself. -/
theorem c7_schema_template_roundtrip :
    ConfigValidator.schemaAccepts ConfigValidator.generateTemplateParsed = true
    ∧ exceptOk (ConfigValidator.validate ConfigValidator.templateConfigInput) = true := by
  constructor <;> decide

/-! ### Error sanitization infrastructure (claims C4, C5) -/

theorem occurs_pair_cons (x y c : Char) (l : List Char) :
    occurs [x, y] (c :: l) = ((x == c) && headIs y l || occurs [x, y] l) := by
  cases l <;> simp [occurs, List.isPrefixOf, headIs]

theorem occurs_head_mem {x : Char} {p l : List Char} (h : occurs (x :: p) l = true) : x ∈ l := by
  induction l with
  | nil => simp [occurs] at h
  | cons c t ih =>
      simp only [occurs, Bool.or_eq_true] at h
      rcases h with h | h
      · simp only [List.isPrefixOf, Bool.and_eq_true] at h
        have : x = c := eq_of_beq h.1
        simp [this]
      · exact List.mem_cons_of_mem _ (ih h)

theorem occurs_pair_append_cases {x y : Char} : ∀ {a b : List Char},
    occurs [x, y] (a ++ b) = true →
    occurs [x, y] a = true ∨ occurs [x, y] b = true
      ∨ (a.getLast? = some x ∧ headIs y b = true) := by
  intro a
  induction a with
  | nil => intro b h; right; left; simpa using h
  | cons c a' ih =>
      intro b h
      rw [List.cons_append, occurs_pair_cons, Bool.or_eq_true] at h
      rcases h with h | h
      · rw [Bool.and_eq_true] at h
        have hxc : x = c := eq_of_beq h.1
        cases a' with
        | nil =>
            right; right
            refine ⟨by simp [hxc], ?_⟩
            simpa using h.2
        | cons d t =>
            left
            have hyd : y = d := by
              have := h.2
              simpa [headIs] using this
            simp [occurs, List.isPrefixOf, hxc, hyd]
      · rcases ih h with h1 | h1 | h1
        · left
          simp only [occurs, Bool.or_eq_true]
          right; exact h1
        · right; left; exact h1
        · right; right
          refine ⟨?_, h1.2⟩
          have hne : a' ≠ [] := by
            intro hcon
            rw [hcon] at h1
            simp at h1
          rcases a' with _ | ⟨d, t⟩
          · exact absurd rfl hne
          · rw [List.getLast?_cons_cons]
            exact h1.1

theorem replaceTestKey_noop : ∀ l : List Char,
    occurs testKeyNeedle l = false → SecurityValidator.replaceTestKey l = l := by
  intro l
  induction l using SecurityValidator.replaceTestKey.induct with
  | case1 rest ih =>
      intro h
      exfalso
      simp [occurs, testKeyNeedle, List.isPrefixOf] at h
  | case2 c rest hne ih =>
      intro h
      simp only [SecurityValidator.replaceTestKey]
      rw [ih (occurs_cons_false h)]
  | case3 => intro _; rfl

theorem posixGo_none_noop : ∀ l : List Char, ('/' : Char) ∉ l →
    SecurityValidator.posixGo none l = l := by
  intro l
  induction l with
  | nil => intro _; rfl
  | cons c t ih =>
      intro h
      have hc : c ≠ '/' := by intro hcon; exact h (by simp [hcon])
      have ht : ('/' : Char) ∉ t := fun hm => h (List.mem_cons_of_mem _ hm)
      simp only [SecurityValidator.posixGo]
      rw [if_neg hc, ih ht]

theorem winGo_false_noop : ∀ (m : Bool) (l : List Char), m = false →
    occurs winNeedle l = false → SecurityValidator.winGo m l = l := by
  intro m l
  induction m, l using SecurityValidator.winGo.induct with
  | case1 => intro _ _; rfl
  | case2 c rest hstop ih =>
      intro _ h
      exfalso
      simp [occurs, winNeedle, List.isPrefixOf] at h
  | case3 c rest hstop ih =>
      intro _ h
      exfalso
      simp [occurs, winNeedle, List.isPrefixOf] at h
  | case4 c rest hne ih =>
      intro _ h
      simp only [SecurityValidator.winGo]
      rw [ih rfl (occurs_cons_false h)]
  | case5 => intro hcon _; exact absurd hcon (by decide)
  | case6 c rest hstop ih => intro hcon _; exact absurd hcon (by decide)
  | case7 c rest hstop ih => intro hcon _; exact absurd hcon (by decide)

theorem connGo_noop : ∀ (m : SecurityValidator.ConnMode) (l : List Char),
    occurs ['/', '/'] l = false →
    (∀ pw, m = .norm pw → SecurityValidator.connGo m l = l)
    ∧ (∀ acc, m = .run acc → SecurityValidator.connGo m l = acc ++ l) := by
  intro m l
  induction m, l using SecurityValidator.connGo.induct with
  | case1 pw =>
      intro _
      exact ⟨fun _ _ => rfl, fun acc hcon => SecurityValidator.ConnMode.noConfusion hcon⟩
  | case2 c rest hw ih =>
      intro h
      refine ⟨fun pw _ => ?_, fun acc hcon => SecurityValidator.ConnMode.noConfusion hcon⟩
      simp only [SecurityValidator.connGo, hw, if_true]
      rw [(ih (occurs_cons_false h)).1 true rfl]
  | case3 pw c rest hw hpw ih =>
      intro h
      refine ⟨fun pw2 _ => ?_, fun acc hcon => SecurityValidator.ConnMode.noConfusion hcon⟩
      have hpwf : pw = false := by revert hpw; cases pw <;> simp
      subst hpwf
      simp only [SecurityValidator.connGo, hw, if_true, if_false, Bool.false_eq_true]
      rw [(ih (occurs_cons_false h)).2 [c] rfl]
      rfl
  | case4 pw c rest hw ih =>
      intro h
      refine ⟨fun pw2 _ => ?_, fun acc hcon => SecurityValidator.ConnMode.noConfusion hcon⟩
      simp only [SecurityValidator.connGo, hw, if_false, Bool.false_eq_true]
      rw [(ih (occurs_cons_false h)).1 false rfl]
  | case5 acc =>
      intro _
      refine ⟨fun pw hcon => SecurityValidator.ConnMode.noConfusion hcon, fun acc2 hcon => ?_⟩
      injection hcon with he
      subst he
      simp [SecurityValidator.connGo]
  | case6 acc c rest hsp ih =>
      intro h
      exfalso
      simp [occurs, List.isPrefixOf] at h
  | case7 acc c rest hsp ih =>
      intro h
      exfalso
      simp [occurs, List.isPrefixOf] at h
  | case8 acc =>
      intro h
      exfalso
      simp [occurs, List.isPrefixOf] at h
  | case9 acc rest hne hne2 ih =>
      intro h
      refine ⟨fun pw hcon => SecurityValidator.ConnMode.noConfusion hcon, fun acc2 hcon => ?_⟩
      injection hcon with he
      subst he
      simp only [SecurityValidator.connGo]
      rw [(ih (occurs_cons_false (occurs_cons_false h))).1 false rfl]
  | case10 acc rest hne hne2 hne3 ih =>
      intro h
      refine ⟨fun pw hcon => SecurityValidator.ConnMode.noConfusion hcon, fun acc2 hcon => ?_⟩
      injection hcon with he
      subst he
      simp only [SecurityValidator.connGo]
      rw [(ih (occurs_cons_false h)).1 false rfl]
  | case11 acc c rest hne hne2 hne3 hne4 hw ih =>
      intro h
      refine ⟨fun pw hcon => SecurityValidator.ConnMode.noConfusion hcon, fun acc2 hcon => ?_⟩
      injection hcon with he
      subst he
      simp only [SecurityValidator.connGo, hw, if_true]
      rw [(ih (occurs_cons_false h)).2 (acc ++ [c]) rfl]
      simp
  | case12 acc c rest hne hne2 hne3 hne4 hw ih =>
      intro h
      refine ⟨fun pw hcon => SecurityValidator.ConnMode.noConfusion hcon, fun acc2 hcon => ?_⟩
      injection hcon with he
      subst he
      simp only [SecurityValidator.connGo, hw, if_false, Bool.false_eq_true]
      rw [(ih (occurs_cons_false h)).1 false rfl]
  | case13 =>
      intro _
      exact ⟨fun pw hcon => SecurityValidator.ConnMode.noConfusion hcon,
             fun acc hcon => SecurityValidator.ConnMode.noConfusion hcon⟩
  | case14 c rest hsp ih =>
      intro _
      exact ⟨fun pw hcon => SecurityValidator.ConnMode.noConfusion hcon,
             fun acc hcon => SecurityValidator.ConnMode.noConfusion hcon⟩
  | case15 c rest hsp ih =>
      intro _
      exact ⟨fun pw hcon => SecurityValidator.ConnMode.noConfusion hcon,
             fun acc hcon => SecurityValidator.ConnMode.noConfusion hcon⟩

theorem stop_ne_slash {c : Char} (h : stopChar c = true) : (('/' : Char) == c) = false := by
  cases hbe : ('/' : Char) == c
  · rfl
  · exfalso
    have he : ('/' : Char) = c := eq_of_beq hbe
    rw [← he] at h
    exact absurd h (by decide)

theorem occurs_pair_append_false {x y : Char} {a b : List Char}
    (ha : occurs [x, y] a = false) (hb : occurs [x, y] b = false)
    (hj : (a.getLast? = some x ∧ headIs y b = true) → False) :
    occurs [x, y] (a ++ b) = false := by
  cases hocc : occurs [x, y] (a ++ b)
  · rfl
  · rcases occurs_pair_append_cases hocc with h | h | h
    · rw [ha] at h; cases h
    · rw [hb] at h; cases h
    · exact (hj h).elim

theorem posixGo_noDoubleSlash : ∀ (m : Option Bool) (l : List Char),
    occurs ['/', '/'] (SecurityValidator.posixGo m l) = false := by
  intro m l
  induction m, l using SecurityValidator.posixGo.induct with
  | case1 => decide
  | case2 rest ih => simpa [SecurityValidator.posixGo] using ih
  | case3 c rest hc ih =>
      simp only [SecurityValidator.posixGo, hc, if_false]
      rw [occurs_pair_cons]
      have hne : (('/' : Char) == c) = false := by
        cases hbe : ('/' : Char) == c
        · rfl
        · exact absurd (eq_of_beq hbe).symm hc
      simp [hne, ih]
  | case4 => decide
  | case5 got hne =>
      have hg : got = false := by revert hne; cases got <;> simp
      subst hg
      decide
  | case6 got c rest hstop ih =>
      simp only [SecurityValidator.posixGo, hstop, if_true]
      apply occurs_pair_append_false
      · cases got <;> decide
      · rw [occurs_pair_cons]
        simp [stop_ne_slash hstop, ih]
      · intro hsp
        rcases hsp with ⟨h1, h2⟩
        have hhead : headIs '/' (c :: SecurityValidator.posixGo none rest)
            = (('/' : Char) == c) := rfl
        rw [hhead, stop_ne_slash hstop] at h2
        cases h2
  | case7 got c rest hnstop ih =>
      simp only [SecurityValidator.posixGo, hnstop, if_false]
      exact ih

theorem winGo_false_head : ∀ (m : Bool) (l : List Char), m = false →
    headIs '/' (SecurityValidator.winGo m l) = true → headIs '/' l = true := by
  intro m l
  induction m, l using SecurityValidator.winGo.induct with
  | case1 => intro _ h; exact h
  | case2 c rest hstop ih =>
      intro _ h
      rw [show SecurityValidator.winGo false ('C' :: ':' :: '\\' :: c :: rest)
            = 'C' :: SecurityValidator.winGo false (':' :: '\\' :: c :: rest) from by
          simp [SecurityValidator.winGo, hstop]] at h
      exact absurd (show (('/' : Char) == 'C') = true from h) (by decide)
  | case3 c rest hstop ih =>
      intro _ h
      rw [show SecurityValidator.winGo false ('C' :: ':' :: '\\' :: c :: rest)
            = SecurityValidator.pathTok ++ SecurityValidator.winGo true rest from by
          simp [SecurityValidator.winGo, hstop]] at h
      exact absurd (show (('/' : Char) == '[') = true from h) (by decide)
  | case4 c rest hne ih =>
      intro _ h
      rw [show SecurityValidator.winGo false (c :: rest)
            = c :: SecurityValidator.winGo false rest from by
          simp [SecurityValidator.winGo]] at h
      exact h
  | case5 => intro hcon; exact absurd hcon (by decide)
  | case6 c rest hstop ih => intro hcon; exact absurd hcon (by decide)
  | case7 c rest hstop ih => intro hcon; exact absurd hcon (by decide)

theorem winGo_noDoubleSlash : ∀ (m : Bool) (l : List Char),
    occurs ['/', '/'] l = false → occurs ['/', '/'] (SecurityValidator.winGo m l) = false := by
  intro m l
  induction m, l using SecurityValidator.winGo.induct with
  | case1 => intro _; decide
  | case2 c rest hstop ih =>
      intro h
      rw [show SecurityValidator.winGo false ('C' :: ':' :: '\\' :: c :: rest)
            = 'C' :: SecurityValidator.winGo false (':' :: '\\' :: c :: rest) from by
          simp [SecurityValidator.winGo, hstop]]
      rw [occurs_pair_cons]
      simp only [show (('/' : Char) == 'C') = false from by decide, Bool.false_and,
        Bool.false_or]
      exact ih (occurs_cons_false h)
  | case3 c rest hstop ih =>
      intro h
      rw [show SecurityValidator.winGo false ('C' :: ':' :: '\\' :: c :: rest)
            = SecurityValidator.pathTok ++ SecurityValidator.winGo true rest from by
          simp [SecurityValidator.winGo, hstop]]
      apply occurs_pair_append_false
      · decide
      · exact ih (occurs_cons_false (occurs_cons_false (occurs_cons_false
          (occurs_cons_false h))))
      · intro hsp
        rcases hsp with ⟨h1, h2⟩
        rw [show SecurityValidator.pathTok.getLast? = some ']' from by decide] at h1
        have hj : (']' : Char) = '/' := by injection h1
        exact absurd hj (by decide)
  | case4 c rest hne ih =>
      intro h
      rw [show SecurityValidator.winGo false (c :: rest)
            = c :: SecurityValidator.winGo false rest from by
          simp [SecurityValidator.winGo]]
      rw [occurs_pair_cons]
      have hrec := ih (occurs_cons_false h)
      by_cases hc : (('/' : Char) == c) = true
      · have hcc : c = '/' := (eq_of_beq hc).symm
        subst hcc
        have hhead : headIs '/' rest = false := by
          cases hhd : headIs '/' rest
          · rfl
          · exfalso
            have hocc : occurs ['/', '/'] ('/' :: rest) = true := by
              rcases rest with _ | ⟨d, t⟩
              · simp [headIs] at hhd
              · have hd : ('/' : Char) = d := eq_of_beq (by simpa [headIs] using hhd)
                subst hd
                simp [occurs, List.isPrefixOf]
            rw [h] at hocc; cases hocc
        have hwh : headIs '/' (SecurityValidator.winGo false rest) = false := by
          cases hwg : headIs '/' (SecurityValidator.winGo false rest)
          · rfl
          · exact absurd (winGo_false_head false rest rfl hwg) (by simp [hhead])
        simp only [hwh, Bool.and_false, Bool.false_or]
        exact hrec
      · have hcf : (('/' : Char) == c) = false := by
          cases hbe : ('/' : Char) == c
          · rfl
          · exact absurd hbe hc
        simp only [hcf, Bool.false_and, Bool.false_or]
        exact hrec
  | case5 => intro _; decide
  | case6 c rest hstop ih =>
      intro h
      rw [show SecurityValidator.winGo true (c :: rest)
            = c :: SecurityValidator.winGo false rest from by
          simp [SecurityValidator.winGo, hstop]]
      rw [occurs_pair_cons]
      simp only [stop_ne_slash hstop, Bool.false_and, Bool.false_or]
      exact ih (occurs_cons_false h)
  | case7 c rest hstop ih =>
      intro h
      rw [show SecurityValidator.winGo true (c :: rest)
            = SecurityValidator.winGo true rest from by
          simp [SecurityValidator.winGo, hstop]]
      exact ih (occurs_cons_false h)

theorem occurs_ne_nil {t l : List Char} (hne : t ≠ []) (h : occurs t l = true) : l ≠ [] := by
  intro hcon
  subst hcon
  have hie : t.isEmpty = true := h
  exact hne (List.isEmpty_iff.mp hie)

theorem hexGo_emits_redacted (t : List Char) (ht : SecurityValidator.hexRedactable t = true) :
    ∀ (l acc : List Char), t ∈ SecurityValidator.runsGo acc l →
    occurs SecurityValidator.redactedTok (SecurityValidator.hexGo acc l) = true := by
  intro l
  induction l with
  | nil =>
      intro acc hmem
      simp only [SecurityValidator.runsGo, SecurityValidator.flushRun] at hmem
      split at hmem
      · simp at hmem
      · have hta : t = acc := by simpa using hmem
        subst hta
        simp only [SecurityValidator.hexGo, SecurityValidator.flushHex]
        rw [if_pos ht]
        exact occurs_self _
  | cons c rest ih =>
      intro acc hmem
      by_cases hw : isWordChar c = true
      · simp only [SecurityValidator.runsGo, hw, if_true] at hmem
        simp only [SecurityValidator.hexGo, hw, if_true]
        exact ih _ hmem
      · have hwf : isWordChar c = false := by revert hw; cases isWordChar c <;> simp
        simp only [SecurityValidator.runsGo, hwf, Bool.false_eq_true, if_false] at hmem
        simp only [SecurityValidator.hexGo, hwf, Bool.false_eq_true, if_false]
        rw [List.mem_append] at hmem
        rcases hmem with hm | hm
        · simp only [SecurityValidator.flushRun] at hm
          split at hm
          · simp at hm
          · have hta : t = acc := by simpa using hm
            subst hta
            apply occurs_append_left
            simp only [SecurityValidator.flushHex]
            rw [if_pos ht]
            exact occurs_self _
        · have hrec := ih [] hm
          rw [show SecurityValidator.flushHex acc ++ c :: SecurityValidator.hexGo [] rest
                = (SecurityValidator.flushHex acc ++ [c]) ++ SecurityValidator.hexGo [] rest
              from by simp]
          exact occurs_append_right _ hrec

theorem hexGo_no_token (t : List Char) (htw : t.all isWordChar = true) (htn : 11 ≤ t.length) :
    ∀ (l acc : List Char),
      (∀ r ∈ SecurityValidator.runsGo acc l,
          occurs t r = true → SecurityValidator.hexRedactable r = true) →
      occurs t (SecurityValidator.hexGo acc l) = false := by
  have htne : t ≠ [] := by
    intro hcon; rw [hcon] at htn; simp at htn
  have hred : occurs t SecurityValidator.redactedTok = false := by
    cases hocc : occurs t SecurityValidator.redactedTok
    · rfl
    · exfalso
      have hlen := occurs_length_le hocc
      rw [show SecurityValidator.redactedTok.length = 10 from rfl] at hlen
      omega
  intro l
  induction l with
  | nil =>
      intro acc hruns
      simp only [SecurityValidator.hexGo, SecurityValidator.flushHex]
      by_cases hr : SecurityValidator.hexRedactable acc = true
      · rw [if_pos hr]; exact hred
      · rw [if_neg hr]
        cases hocc : occurs t acc
        · rfl
        · exfalso
          apply hr
          apply hruns acc _ hocc
          have hanil : acc ≠ [] := occurs_ne_nil htne hocc
          simp [SecurityValidator.runsGo, SecurityValidator.flushRun, hanil]
  | cons c rest ih =>
      intro acc hruns
      by_cases hw : isWordChar c = true
      · simp only [SecurityValidator.runsGo, hw, if_true] at hruns
        simp only [SecurityValidator.hexGo, hw, if_true]
        exact ih _ hruns
      · have hwf : isWordChar c = false := by revert hw; cases isWordChar c <;> simp
        simp only [SecurityValidator.runsGo, hwf, Bool.false_eq_true, if_false] at hruns
        simp only [SecurityValidator.hexGo, hwf, Bool.false_eq_true, if_false]
        rw [occurs_split_char (P := isWordChar) hwf t htw htne]
        have hright : occurs t (SecurityValidator.hexGo [] rest) = false := by
          apply ih
          intro r hr hO
          exact hruns r (List.mem_append_right _ hr) hO
        have hleft : occurs t (SecurityValidator.flushHex acc) = false := by
          simp only [SecurityValidator.flushHex]
          by_cases hrd : SecurityValidator.hexRedactable acc = true
          · rw [if_pos hrd]; exact hred
          · rw [if_neg hrd]
            cases hocc : occurs t acc
            · rfl
            · exfalso
              apply hrd
              apply hruns acc _ hocc
              have hanil : acc ≠ [] := occurs_ne_nil htne hocc
              apply List.mem_append_left
              simp [SecurityValidator.flushRun, hanil]
        rw [hleft, hright]
        rfl

theorem all_word_of_all_hex {t : List Char} (h : t.all isHexChar = true) :
    t.all isWordChar = true := by
  rw [List.all_eq_true] at h ⊢
  intro x hx
  have hh := h x hx
  simp only [isHexChar, Bool.or_eq_true, Bool.and_eq_true, decide_eq_true_eq,
    beq_iff_eq] at hh
  simp only [isWordChar, Bool.or_eq_true, Bool.and_eq_true, decide_eq_true_eq, beq_iff_eq]
  omega

/-- C4 counterexample: the non-safe error message
`connect to http://db.example.com failed` contains a `scheme://...`
connection string, yet `sanitizeErrorMessage` returns
`connect to http:[PATH_REDACTED] failed`: the connection string is consumed
by the earlier path redaction and `[CONNECTION_REDACTED]` never appears. -/
theorem c4_connection_redaction_counterexample :
    SecurityValidator.isSafeError connStringError = false
    ∧ occurs (cl "http://db.example.com") connStringError.message = true
    ∧ (SecurityValidator.sanitizeErrorMessage connStringError).message
        = cl "connect to http:[PATH_REDACTED] failed"
    ∧ occurs SecurityValidator.connTok
        (SecurityValidator.sanitizeErrorMessage connStringError).message = false := by
  refine ⟨?_, ?_, ?_, ?_⟩ <;> decide

/-- C4 (amended): the redactions are applied in the stated order (hex
tokens, then filesystem paths, then connection strings), but the POSIX path
rule always consumes the `//...` part of any connection string first, so
after the two path redactions no `//` remains and the connection-string
rule never fires: it is a no-op on every message, and a connection string
comes out as `scheme:[PATH_REDACTED]` (as the concrete run shows), not as
`[CONNECTION_REDACTED]`. -/
theorem c4_path_rule_consumes_connection_strings :
    (∀ m : List Char,
        SecurityValidator.replaceConnStrings
            (SecurityValidator.replaceWinPaths (SecurityValidator.replacePosixPaths m))
          = SecurityValidator.replaceWinPaths (SecurityValidator.replacePosixPaths m))
    ∧ occurs SecurityValidator.pathTok
        (SecurityValidator.sanitizeErrorMessage connStringError).message = true := by
  constructor
  · intro m
    have h1 := posixGo_noDoubleSlash none m
    have h2 := winGo_noDoubleSlash false _ h1
    exact (connGo_noop _ _ h2).1 false rfl
  · decide

/-- C5 counterexample: the non-safe error whose message is
`Connection failed: <40-hex-token>` contains a word-bounded 40-character hex
token, yet `sanitizeErrorMessage` returns the generic
`Database connection error`, which contains no `[REDACTED]` marker — the
database-connection override discards the redacted text. -/
theorem c5_hex_redaction_counterexample :
    SecurityValidator.isSafeError dbHexError = false
    ∧ occurs hexTok40 dbHexError.message = true
    ∧ hexTok40.all isHexChar = true
    ∧ hexTok40.length = 40
    ∧ (SecurityValidator.sanitizeErrorMessage dbHexError).message
        = cl "Database connection error"
    ∧ occurs SecurityValidator.redactedTok
        (SecurityValidator.sanitizeErrorMessage dbHexError).message = false := by
  refine ⟨?_, ?_, ?_, ?_, ?_, ?_⟩ <;> decide

/-- C5 (amended): every safe-category error (a `ValidationError` instance,
or a message carrying one of the rate-limit / input-guard markers) is
returned unchanged.  For a non-safe error whose message carries a
40-character hexadecimal token as a maximal word run, where every word run
containing the token is itself a redactable hex run, and whose hex-redacted
message contains no `/`, no `C:\` or `test-key` needle, and none of the
genericizing override markers (`ENOENT`, `no such file`,
`Connection failed`, `mysql:`, `postgresql:`), the sanitized message
contains `[REDACTED]` and no longer contains the token. -/
theorem c5_sanitize_hex_redaction_amended :
    (∀ e : SecurityValidator.ErrorObj, SecurityValidator.isSafeError e = true →
        SecurityValidator.sanitizeErrorMessage e = e)
    ∧ (∀ (e : SecurityValidator.ErrorObj) (t : List Char),
        SecurityValidator.isSafeError e = false →
        t.all isHexChar = true →
        t.length = 40 →
        t ∈ SecurityValidator.wordRuns e.message →
        (∀ r ∈ SecurityValidator.wordRuns e.message,
            occurs t r = true → SecurityValidator.hexRedactable r = true) →
        occurs testKeyNeedle (SecurityValidator.replaceHexTokens e.message) = false →
        ('/' : Char) ∉ SecurityValidator.replaceHexTokens e.message →
        occurs winNeedle (SecurityValidator.replaceHexTokens e.message) = false →
        occurs (cl "ENOENT") (SecurityValidator.replaceHexTokens e.message) = false →
        occurs (cl "no such file") (SecurityValidator.replaceHexTokens e.message) = false →
        occurs (cl "Connection failed") (SecurityValidator.replaceHexTokens e.message) = false →
        occurs (cl "mysql:") (SecurityValidator.replaceHexTokens e.message) = false →
        occurs (cl "postgresql:") (SecurityValidator.replaceHexTokens e.message) = false →
        occurs SecurityValidator.redactedTok
            (SecurityValidator.sanitizeErrorMessage e).message = true
        ∧ occurs t (SecurityValidator.sanitizeErrorMessage e).message = false) := by
  constructor
  · intro e hsafe
    simp only [SecurityValidator.sanitizeErrorMessage, hsafe, if_true]
  · intro e t hsafe hhex hlen hmem hruns htk hsl hwin hen hns hcf hmy hpg
    set m1 := SecurityValidator.replaceHexTokens e.message with hm1
    have e1 : SecurityValidator.replaceTestKey m1 = m1 := replaceTestKey_noop m1 htk
    have e2 : SecurityValidator.replacePosixPaths m1 = m1 := posixGo_none_noop m1 hsl
    have e3 : SecurityValidator.replaceWinPaths m1 = m1 := winGo_false_noop false m1 rfl hwin
    have hnodbl : occurs ['/', '/'] m1 = false := by
      cases hocc : occurs ['/', '/'] m1
      · rfl
      · exact absurd (occurs_head_mem hocc) hsl
    have e4 : SecurityValidator.replaceConnStrings m1 = m1 :=
      (connGo_noop _ m1 hnodbl).1 false rfl
    have e5 : SecurityValidator.enoentOverride m1 = m1 := by
      simp [SecurityValidator.enoentOverride, hen, hns]
    have e6 : SecurityValidator.dbOverride m1 = m1 := by
      simp [SecurityValidator.dbOverride, hcf, hmy, hpg]
    have hmsg : (SecurityValidator.sanitizeErrorMessage e).message = m1 := by
      simp only [SecurityValidator.sanitizeErrorMessage, hsafe, Bool.false_eq_true, if_false]
      simp only [SecurityValidator.sanitizeMessage]
      rw [← hm1, e1, e2, e3, e4, e5, e6]
    rw [hmsg]
    constructor
    · have hred : SecurityValidator.hexRedactable t = true := by
        simp [SecurityValidator.hexRedactable, hhex, hlen]
      exact hexGo_emits_redacted t hred e.message [] hmem
    · have htw : t.all isWordChar = true := all_word_of_all_hex hhex
      have ht11 : 11 ≤ t.length := by omega
      exact hexGo_no_token t htw ht11 e.message [] hruns

/-- Witness for C5 at a concrete non-safe error with a clean 40-hex token. -/
theorem c5_sanitize_hex_redaction_witness :
    occurs SecurityValidator.redactedTok
        (SecurityValidator.sanitizeErrorMessage plainHexError).message = true
    ∧ occurs hexTok40 (SecurityValidator.sanitizeErrorMessage plainHexError).message = false :=
  c5_sanitize_hex_redaction_amended.2 plainHexError hexTok40 (by decide) (by decide)
    (by decide) (by decide) (by decide) (by decide) (by decide) (by decide) (by decide)
    (by decide) (by decide) (by decide) (by decide)
